import Mathlib

/-!
Shallow embedding of `src/mathesar_ui/src/stores/schemas.ts`: the reactive
cache of schema records for the currently selected database, together with
the fetch / create / delete operations that keep it consistent, and an
event-step semantics for the asynchronous interleavings the file allows.
-/

set_option autoImplicit false

namespace Schemas

/-- The part of the `Database` model used by `schemas.ts`: its `id`. -/
structure Database where
  id : Nat
  deriving DecidableEq

/-- A raw schema record as returned by the RPC `list` / `add` calls:
`oid`, `name`, `description`. -/
structure RawSchema where
  oid : Nat
  name : String
  description : Option String
  deriving DecidableEq

/-- The part of the `Schema` model constructed by
`new Schema({ database, rawSchema })` that `schemas.ts` observes: the `oid`,
the owning database's id, and the descriptive fields. -/
structure Schema where
  oid : Nat
  databaseId : Nat
  name : String
  description : Option String
  deriving DecidableEq

/-- `new Schema({ database, rawSchema })`. -/
def Schema.ofRaw (database : Database) (rawSchema : RawSchema) : Schema :=
  { oid := rawSchema.oid
    databaseId := database.id
    name := rawSchema.name
    description := rawSchema.description }

/-- `RequestStatus`: `success`, `processing`, or `failure` with a list of
error messages. -/
inductive RequestState where
  | success
  | processing
  | failure (errors : List String)
  deriving DecidableEq

/-- A JS `Map<oid, Schema>` modelled as an insertion-ordered association
list with no duplicate keys (the maps built by the store start empty and
are only changed through `mapSet` / `mapDelete`, which preserve that). -/
abbrev SchemaMap := List (Nat × Schema)

/-- `Map.prototype.get`. -/
def mapGet : SchemaMap → Nat → Option Schema
  | [], _ => none
  | p :: t, k => if p.1 = k then some p.2 else mapGet t k

/-- `Map.prototype.set`: replace the value in place when the key is
present, append otherwise. -/
def mapSet : SchemaMap → Nat → Schema → SchemaMap
  | [], k, v => [(k, v)]
  | p :: t, k, v => if p.1 = k then (k, v) :: t else p :: mapSet t k v

/-- `Map.prototype.delete`. -/
def mapDelete : SchemaMap → Nat → SchemaMap
  | [], _ => []
  | p :: t, k => if p.1 = k then mapDelete t k else p :: mapDelete t k

/-- `SchemaStoreData`: `databaseId?`, `requestStatus`, `data`. -/
structure SchemaStoreData where
  databaseId : Option Nat
  requestStatus : RequestState
  data : SchemaMap
  deriving DecidableEq

/-- `makeEmptySchemasData()`: no `databaseId`, `success`, empty map. -/
def makeEmptySchemasData : SchemaStoreData :=
  { databaseId := none
    requestStatus := RequestState.success
    data := [] }

/-- The `rawSchemas.forEach` loop of `setSchemasInStore`, folding the raw
records into an accumulator map. -/
def insertRawSchemas (database : Database) (m : SchemaMap) :
    List RawSchema → SchemaMap
  | [] => m
  | r :: rs => insertRawSchemas database (mapSet m r.oid (Schema.ofRaw database r)) rs

/-- `setSchemasInStore(database, rawSchemas)`: build a fresh map keyed by
`oid` and replace the store wholesale (the prior store value is ignored,
hence not an argument). -/
def setSchemasInStore (database : Database) (rawSchemas : List RawSchema) :
    SchemaStoreData :=
  { databaseId := some database.id
    requestStatus := RequestState.success
    data := insertRawSchemas database [] rawSchemas }

/-- `updateSchemaInStore(database, schema)`: insert `schema` under its
`oid`, but only when the store's `databaseId` matches `database.id`. -/
def updateSchemaInStore (database : Database) (schema : Schema)
    (s : SchemaStoreData) : SchemaStoreData :=
  if s.databaseId = some database.id then
    { s with data := mapSet s.data schema.oid schema }
  else s

/-- `removeSchemaInStore(database, schema)`: delete the entry keyed by
`schema.oid`, but only when the store's `databaseId` matches
`database.id`. -/
def removeSchemaInStore (database : Database) (schema : Schema)
    (s : SchemaStoreData) : SchemaStoreData :=
  if s.databaseId = some database.id then
    { s with data := mapDelete s.data schema.oid }
  else s

/-- The synchronous `schemasStore.update` at the start of
`fetchSchemasForCurrentDatabase` once a current database exists: mark
`processing`, keeping the data when the database is unchanged and
resetting it otherwise. -/
def fetchStartUpdate (database : Database) (s : SchemaStoreData) :
    SchemaStoreData :=
  if s.databaseId = some database.id then
    { s with requestStatus := RequestState.processing }
  else
    { databaseId := some database.id
      requestStatus := RequestState.processing
      data := [] }

/-- The `catch` handler of `fetchSchemasForCurrentDatabase`, applied to the
store state at the time the failure arrives: record the failure message,
preserving the data when the store still belongs to the fetched database
and resetting it otherwise. -/
def fetchFailureUpdate (database : Database) (msg : String)
    (s : SchemaStoreData) : SchemaStoreData :=
  if s.databaseId = some database.id then
    { s with requestStatus := RequestState.failure [msg] }
  else
    { databaseId := some database.id
      requestStatus := RequestState.failure [msg]
      data := [] }

/-- A whole run of `fetchSchemasForCurrentDatabase` with no interleaved
store writes: `current` is the current database at entry and `result` the
outcome of the `list` call. With no current database the store is reset to
empty; otherwise a success replaces the store via `setSchemasInStore` and
a failure goes through the start update then the catch handler. The
function is total: a failed `list` call yields a store state, it never
propagates. -/
def fetchRun (current : Option Database)
    (result : Except String (List RawSchema)) (s : SchemaStoreData) :
    SchemaStoreData :=
  match current with
  | none => makeEmptySchemasData
  | some database =>
    match result with
    | Except.ok raws => setSchemasInStore database raws
    | Except.error msg => fetchFailureUpdate database msg (fetchStartUpdate database s)

/-- The store write performed by `createSchema(database, props)` once the
`add` call has returned `raw`: insert `new Schema({ database, rawSchema })`
through `updateSchemaInStore`. -/
def createSchemaUpdate (database : Database) (raw : RawSchema)
    (s : SchemaStoreData) : SchemaStoreData :=
  updateSchemaInStore database (Schema.ofRaw database raw) s

/-- The store write performed by `deleteSchema(schema)` once the remote
delete has resolved: remove the entry through
`removeSchemaInStore(schema.database, schema)`. -/
def deleteSchemaUpdate (schema : Schema) (s : SchemaStoreData) :
    SchemaStoreData :=
  removeSchemaInStore { id := schema.databaseId } schema s

/-- `createSchema`'s control flow around the `add` call: an error from the
RPC propagates to the caller with the store untouched; a success applies
`createSchemaUpdate`. -/
def createSchemaRun (database : Database) (result : Except String RawSchema)
    (s : SchemaStoreData) : Except String Unit × SchemaStoreData :=
  match result with
  | Except.error e => (Except.error e, s)
  | Except.ok raw => (Except.ok (), createSchemaUpdate database raw s)

/-- `deleteSchema`'s control flow around `schema.delete()`: an error
propagates to the caller with the store untouched; a success applies
`deleteSchemaUpdate`. -/
def deleteSchemaRun (schema : Schema) (result : Except String Unit)
    (s : SchemaStoreData) : Except String Unit × SchemaStoreData :=
  match result with
  | Except.error e => (Except.error e, s)
  | Except.ok _ => (Except.ok (), deleteSchemaUpdate schema s)

/-- The module-level mutable context of `schemas.ts` seen by its
asynchronous interleavings: the store, the current database from
`databasesStore.currentDatabase`, the module's single `request` variable
(holding, when live, the request's generation number and the database it
was issued for), and a counter minting fresh generation numbers. -/
structure SysState where
  store : SchemaStoreData
  current : Option Database
  pending : Option (Nat × Database)
  nextId : Nat
  deriving DecidableEq

/-- The events the file's code can experience: the current database
changing, `fetchSchemasForCurrentDatabase` starting, the `list` response
for request `reqId` arriving, `createSchema`'s `add` call resolving,
`deleteSchema`'s remote delete resolving, and the preload branch of the
derived `schemas` store seeding the cache synchronously. -/
inductive Event where
  | switchDb (db : Option Database)
  | startFetch
  | listResponse (reqId : Nat) (result : Except String (List RawSchema))
  | createDone (db : Database) (raw : RawSchema)
  | deleteDone (schema : Schema)
  | preloadSeed (db : Database) (raws : List RawSchema)

/-- Modelled from the spec: `CancellablePromise` (from the component
library, not under `src/`) is modelled by the `pending` slot — `startFetch`
first performs `request?.cancel()` by dropping the old pending entry, and
a cancelled or superseded request's continuation never runs, so
`listResponse` only writes to the store when its `reqId` is the live
pending request. Everything else follows `schemas.ts` directly:
`startFetch` with no current database resets the store and issues no call,
otherwise it applies the processing update and registers a fresh request;
a matching `listResponse` applies `setSchemasInStore` on success and the
catch handler on failure; `createDone` / `deleteDone` apply the guarded
store writes; `preloadSeed` applies `setSchemasInStore`. -/
def step (s : SysState) : Event → SysState
  | Event.switchDb db => { s with current := db }
  | Event.startFetch =>
    match s.current with
    | none => { s with store := makeEmptySchemasData, pending := none }
    | some database =>
      { store := fetchStartUpdate database s.store
        current := s.current
        pending := some (s.nextId, database)
        nextId := s.nextId + 1 }
  | Event.listResponse reqId result =>
    match s.pending with
    | none => s
    | some (rid, database) =>
      if rid = reqId then
        { s with
          pending := none
          store :=
            match result with
            | Except.ok raws => setSchemasInStore database raws
            | Except.error msg => fetchFailureUpdate database msg s.store }
      else s
  | Event.createDone db raw => { s with store := createSchemaUpdate db raw s.store }
  | Event.deleteDone schema => { s with store := deleteSchemaUpdate schema s.store }
  | Event.preloadSeed db raws => { s with store := setSchemasInStore db raws }

/-- The initial module state: empty store, no current database, no
in-flight request. -/
def initState : SysState :=
  { store := makeEmptySchemasData
    current := none
    pending := none
    nextId := 0 }

/-- States the module can be in: `initState` and everything `step` reaches
from it. -/
inductive Reachable : SysState → Prop
  | init : Reachable initState
  | next (s : SysState) (e : Event) : Reachable s → Reachable (step s e)

/-!  Lemmas about the `Map` model. -/

theorem mapGet_mapSet (m : SchemaMap) (k : Nat) (v : Schema) (k' : Nat) :
    mapGet (mapSet m k v) k' = if k' = k then some v else mapGet m k' := by
  induction m with
  | nil =>
    by_cases h : k' = k
    · subst h; simp [mapSet, mapGet]
    · simp [mapSet, mapGet, h, Ne.symm h]
  | cons p t ih =>
    by_cases hp : p.1 = k
    · subst hp
      by_cases h : k' = p.1
      · subst h; simp [mapSet, mapGet]
      · simp [mapSet, mapGet, h, Ne.symm h]
    · by_cases hq : p.1 = k'
      · subst hq
        simp [mapSet, mapGet, hp, Ne.symm hp]
      · simp [mapSet, mapGet, hp, hq, ih]

theorem mapGet_mapDelete (m : SchemaMap) (k k' : Nat) :
    mapGet (mapDelete m k) k' = if k' = k then none else mapGet m k' := by
  induction m with
  | nil => simp [mapDelete, mapGet]
  | cons p t ih =>
    by_cases hp : p.1 = k
    · subst hp
      by_cases h : k' = p.1
      · subst h; simp [mapDelete, mapGet, ih]
      · simp [mapDelete, mapGet, h, Ne.symm h, ih]
    · by_cases hq : p.1 = k'
      · subst hq
        simp [mapDelete, mapGet, hp, Ne.symm hp]
      · simp [mapDelete, mapGet, hp, hq, ih]

theorem mapDelete_mapSet_of_get_none (m : SchemaMap) (k : Nat) (v : Schema)
    (h : mapGet m k = none) : mapDelete (mapSet m k v) k = m := by
  induction m with
  | nil => simp [mapSet, mapDelete]
  | cons p t ih =>
    have hp : ¬ p.1 = k := by
      intro he
      simp [mapGet, he] at h
    have ht : mapGet t k = none := by
      simpa [mapGet, hp] using h
    simp [mapSet, mapDelete, hp, ih ht]

theorem mem_mapSet {m : SchemaMap} {k : Nat} {v : Schema} {p : Nat × Schema}
    (h : p ∈ mapSet m k v) : p ∈ m ∨ p = (k, v) := by
  induction m with
  | nil => exact Or.inr (by simpa [mapSet] using h)
  | cons q t ih =>
    by_cases hq : q.1 = k
    · rcases by simpa [mapSet, hq] using h with h' | h'
      · exact Or.inr h'
      · exact Or.inl (List.mem_cons_of_mem q h')
    · rcases by simpa [mapSet, hq] using h with h' | h'
      · exact Or.inl (h' ▸ List.mem_cons_self q t)
      · rcases ih h' with h'' | h''
        · exact Or.inl (List.mem_cons_of_mem q h'')
        · exact Or.inr h''

theorem mem_mapDelete {m : SchemaMap} {k : Nat} {p : Nat × Schema}
    (h : p ∈ mapDelete m k) : p ∈ m := by
  induction m with
  | nil => simp [mapDelete] at h
  | cons q t ih =>
    by_cases hq : q.1 = k
    · exact List.mem_cons_of_mem q (ih (by simpa [mapDelete, hq] using h))
    · rcases by simpa [mapDelete, hq] using h with h' | h'
      · exact h' ▸ List.mem_cons_self q t
      · exact List.mem_cons_of_mem q (ih h')

theorem insertRawSchemas_get_of_not_mem (database : Database)
    (raws : List RawSchema) (m : SchemaMap) (k : Nat)
    (h : k ∉ raws.map (·.oid)) :
    mapGet (insertRawSchemas database m raws) k = mapGet m k := by
  induction raws generalizing m with
  | nil => rfl
  | cons r rs ih =>
    simp only [List.map_cons, List.mem_cons] at h
    push_neg at h
    rw [insertRawSchemas, ih _ h.2, mapGet_mapSet, if_neg h.1]

theorem insertRawSchemas_get_mem (database : Database) :
    ∀ (raws : List RawSchema) (m : SchemaMap),
      (raws.map (·.oid)).Nodup →
      ∀ r ∈ raws,
        mapGet (insertRawSchemas database m raws) r.oid =
          some (Schema.ofRaw database r) := by
  intro raws
  induction raws with
  | nil =>
    intro m _ r hr
    cases hr
  | cons a rs ih =>
    intro m hnd r hr
    rw [List.map_cons, List.nodup_cons] at hnd
    rcases List.mem_cons.mp hr with h | h
    · subst h
      rw [insertRawSchemas,
        insertRawSchemas_get_of_not_mem database rs _ r.oid hnd.1,
        mapGet_mapSet, if_pos rfl]
    · exact ih (mapSet m a.oid (Schema.ofRaw database a)) hnd.2 r h

theorem mem_insertRawSchemas (database : Database) :
    ∀ (raws : List RawSchema) (m : SchemaMap) (p : Nat × Schema),
      p ∈ insertRawSchemas database m raws →
      p ∈ m ∨ ∃ r ∈ raws, p = (r.oid, Schema.ofRaw database r) := by
  intro raws
  induction raws with
  | nil =>
    intro m p h
    exact Or.inl h
  | cons a rs ih =>
    intro m p h
    rcases ih _ p h with h' | ⟨r, hr, he⟩
    · rcases mem_mapSet h' with h'' | h''
      · exact Or.inl h''
      · exact Or.inr ⟨a, List.mem_cons_self a rs, h''⟩
    · exact Or.inr ⟨r, List.mem_cons_of_mem a hr, he⟩

theorem setSchemas_entry_database (database : Database)
    (raws : List RawSchema) (p : Nat × Schema)
    (hp : p ∈ (setSchemasInStore database raws).data) :
    p.2.databaseId = database.id := by
  rcases mem_insertRawSchemas database raws [] p hp with h | ⟨r, _, he⟩
  · cases h
  · rw [he]
    rfl

/-- C1: a successful run of `fetchSchemasForCurrentDatabase` with a
current database selected replaces the store wholesale: `databaseId`
becomes the current database's id, `requestStatus` becomes `success`, and
the data map contains exactly the records returned by the `list` call,
each keyed by its `oid`. -/
theorem fetch_success_replaces_store (database : Database)
    (raws : List RawSchema) (s : SchemaStoreData)
    (hnd : (raws.map (·.oid)).Nodup) :
    (fetchRun (some database) (Except.ok raws) s).databaseId = some database.id ∧
    (fetchRun (some database) (Except.ok raws) s).requestStatus = RequestState.success ∧
    (∀ r ∈ raws,
      mapGet (fetchRun (some database) (Except.ok raws) s).data r.oid =
        some (Schema.ofRaw database r)) ∧
    (∀ k, k ∉ raws.map (·.oid) →
      mapGet (fetchRun (some database) (Except.ok raws) s).data k = none) := by
  refine ⟨rfl, rfl, ?_, ?_⟩
  · intro r hr
    exact insertRawSchemas_get_mem database raws [] hnd r hr
  · intro k hk
    exact (insertRawSchemas_get_of_not_mem database raws [] k hk).trans rfl

theorem fetch_success_replaces_store_witness :
    (([⟨4, "public", none⟩, ⟨7, "sales", some "d"⟩] : List RawSchema).map (·.oid)).Nodup ∧
    ((fetchRun (some ⟨1⟩) (Except.ok [⟨4, "public", none⟩, ⟨7, "sales", some "d"⟩])
        makeEmptySchemasData).databaseId = some (1 : Nat) ∧
      (fetchRun (some ⟨1⟩) (Except.ok [⟨4, "public", none⟩, ⟨7, "sales", some "d"⟩])
        makeEmptySchemasData).requestStatus = RequestState.success ∧
      (∀ r ∈ ([⟨4, "public", none⟩, ⟨7, "sales", some "d"⟩] : List RawSchema),
        mapGet (fetchRun (some ⟨1⟩)
            (Except.ok [⟨4, "public", none⟩, ⟨7, "sales", some "d"⟩])
            makeEmptySchemasData).data r.oid = some (Schema.ofRaw ⟨1⟩ r)) ∧
      (∀ k, k ∉ ([⟨4, "public", none⟩, ⟨7, "sales", some "d"⟩] : List RawSchema).map (·.oid) →
        mapGet (fetchRun (some ⟨1⟩)
            (Except.ok [⟨4, "public", none⟩, ⟨7, "sales", some "d"⟩])
            makeEmptySchemasData).data k = none)) :=
  ⟨by decide,
    fetch_success_replaces_store ⟨1⟩
      [⟨4, "public", none⟩, ⟨7, "sales", some "d"⟩] makeEmptySchemasData (by decide)⟩

/-- C2: a failed `list` call records a failure status carrying the error
message; the data map is preserved when the store's `databaseId` still
equals the fetched database's id at the time the failure arrives, and is
reset to an empty map (keyed to the fetched database) otherwise. -/
theorem fetch_failure_updates_store (database : Database) (msg : String)
    (s : SchemaStoreData) :
    (fetchFailureUpdate database msg s).requestStatus = RequestState.failure [msg] ∧
    (s.databaseId = some database.id →
      (fetchFailureUpdate database msg s).data = s.data ∧
      (fetchFailureUpdate database msg s).databaseId = s.databaseId) ∧
    (s.databaseId ≠ some database.id →
      (fetchFailureUpdate database msg s).data = [] ∧
      (fetchFailureUpdate database msg s).databaseId = some database.id) := by
  by_cases h : s.databaseId = some database.id <;>
    simp [fetchFailureUpdate, h]

theorem fetch_failure_updates_store_witness :
    (fetchFailureUpdate ⟨1⟩ "oops"
        ⟨some 1, RequestState.processing, [(4, ⟨4, 1, "public", none⟩)]⟩).data =
      [(4, ⟨4, 1, "public", none⟩)] ∧
    (fetchFailureUpdate ⟨1⟩ "oops"
        ⟨some 1, RequestState.processing, [(4, ⟨4, 1, "public", none⟩)]⟩).requestStatus =
      RequestState.failure ["oops"] :=
  ⟨((fetch_failure_updates_store ⟨1⟩ "oops"
      ⟨some 1, RequestState.processing, [(4, ⟨4, 1, "public", none⟩)]⟩).2.1 rfl).1,
    (fetch_failure_updates_store ⟨1⟩ "oops"
      ⟨some 1, RequestState.processing, [(4, ⟨4, 1, "public", none⟩)]⟩).1⟩

/-- C5: after a successful `add` call, `createSchema` inserts the returned
schema into the data map under its `oid` when the store's `databaseId`
still equals the database's id, and leaves the store unchanged
otherwise. -/
theorem createSchema_updates_store (database : Database) (raw : RawSchema)
    (s : SchemaStoreData) :
    (s.databaseId = some database.id →
      (createSchemaUpdate database raw s).databaseId = s.databaseId ∧
      (createSchemaUpdate database raw s).requestStatus = s.requestStatus ∧
      ∀ k, mapGet (createSchemaUpdate database raw s).data k =
        if k = raw.oid then some (Schema.ofRaw database raw)
        else mapGet s.data k) ∧
    (s.databaseId ≠ some database.id → createSchemaUpdate database raw s = s) := by
  constructor
  · intro h
    refine ⟨?_, ?_, ?_⟩ <;>
      simp [createSchemaUpdate, updateSchemaInStore, h, mapGet_mapSet, Schema.ofRaw]
  · intro h
    simp [createSchemaUpdate, updateSchemaInStore, h]

theorem createSchema_updates_store_witness :
    ∀ k, mapGet (createSchemaUpdate ⟨1⟩ ⟨9, "new", none⟩
        ⟨some 1, RequestState.success, [(4, ⟨4, 1, "public", none⟩)]⟩).data k =
      if k = 9 then some (Schema.ofRaw ⟨1⟩ ⟨9, "new", none⟩)
      else mapGet [(4, ⟨4, 1, "public", none⟩)] k :=
  ((createSchema_updates_store ⟨1⟩ ⟨9, "new", none⟩
    ⟨some 1, RequestState.success, [(4, ⟨4, 1, "public", none⟩)]⟩).1 rfl).2.2

/-- C6: after a successful remote delete, `deleteSchema` removes the entry
keyed by the schema's `oid` when the store's `databaseId` still equals the
schema's database id, and leaves the store unchanged otherwise. -/
theorem deleteSchema_updates_store (schema : Schema) (s : SchemaStoreData) :
    (s.databaseId = some schema.databaseId →
      (deleteSchemaUpdate schema s).databaseId = s.databaseId ∧
      (deleteSchemaUpdate schema s).requestStatus = s.requestStatus ∧
      ∀ k, mapGet (deleteSchemaUpdate schema s).data k =
        if k = schema.oid then none else mapGet s.data k) ∧
    (s.databaseId ≠ some schema.databaseId → deleteSchemaUpdate schema s = s) := by
  constructor
  · intro h
    refine ⟨?_, ?_, ?_⟩ <;>
      simp [deleteSchemaUpdate, removeSchemaInStore, h, mapGet_mapDelete]
  · intro h
    simp [deleteSchemaUpdate, removeSchemaInStore, h]

theorem deleteSchema_updates_store_witness :
    ∀ k, mapGet (deleteSchemaUpdate ⟨4, 1, "public", none⟩
        ⟨some 1, RequestState.success, [(4, ⟨4, 1, "public", none⟩)]⟩).data k =
      if k = 4 then none else mapGet [(4, ⟨4, 1, "public", none⟩)] k :=
  ((deleteSchema_updates_store ⟨4, 1, "public", none⟩
    ⟨some 1, RequestState.success, [(4, ⟨4, 1, "public", none⟩)]⟩).1 rfl).2.2

/-- C3 counterexample: `setSchemasInStore` is a store mutation that does
not check the store's current `databaseId` against the operation's
database before applying: run for database 1 against a store belonging to
database 2, it still changes the store. -/
theorem setSchemas_mutates_without_guard :
    (⟨some 2, RequestState.success, []⟩ : SchemaStoreData).databaseId ≠
      some (⟨1⟩ : Database).id ∧
    setSchemasInStore ⟨1⟩ [] ≠ ⟨some 2, RequestState.success, []⟩ := by
  decide

/-- C3 amended: the incremental mutations `updateSchemaInStore` and
`removeSchemaInStore` check that the store's `databaseId` matches the
operation's database and leave the store unchanged on a mismatch;
`setSchemasInStore` (and the fetch status updates) carry no such guard,
stale fetch results being suppressed by request cancellation instead. -/
theorem guarded_mutations_require_matching_database (database : Database)
    (schema : Schema) (s : SchemaStoreData)
    (h : s.databaseId ≠ some database.id) :
    updateSchemaInStore database schema s = s ∧
    removeSchemaInStore database schema s = s := by
  simp [updateSchemaInStore, removeSchemaInStore, h]

theorem guarded_mutations_require_matching_database_witness :
    (⟨some 2, RequestState.success, []⟩ : SchemaStoreData).databaseId ≠
      some (⟨1⟩ : Database).id ∧
    (updateSchemaInStore ⟨1⟩ ⟨9, 1, "n", none⟩ ⟨some 2, RequestState.success, []⟩ =
        ⟨some 2, RequestState.success, []⟩ ∧
      removeSchemaInStore ⟨1⟩ ⟨9, 1, "n", none⟩ ⟨some 2, RequestState.success, []⟩ =
        ⟨some 2, RequestState.success, []⟩) :=
  ⟨by decide,
    guarded_mutations_require_matching_database ⟨1⟩ ⟨9, 1, "n", none⟩
      ⟨some 2, RequestState.success, []⟩ (by decide)⟩

/-- C7 counterexample: when the created schema's `oid` already keys an
entry of the map, create-then-delete loses that prior entry, so the cache
does not return to its state before the create. -/
theorem create_delete_not_roundtrip :
    deleteSchemaUpdate (Schema.ofRaw ⟨1⟩ ⟨4, "replacement", none⟩)
        (createSchemaUpdate ⟨1⟩ ⟨4, "replacement", none⟩
          ⟨some 1, RequestState.success, [(4, ⟨4, 1, "public", none⟩)]⟩) ≠
      ⟨some 1, RequestState.success, [(4, ⟨4, 1, "public", none⟩)]⟩ := by
  decide

/-- C7 amended: create followed by delete of the same schema restores the
prior cache state, provided the created schema's `oid` was not already a
key of the data map. -/
theorem create_then_delete_roundtrip (database : Database) (raw : RawSchema)
    (s : SchemaStoreData) (h : mapGet s.data raw.oid = none) :
    deleteSchemaUpdate (Schema.ofRaw database raw)
      (createSchemaUpdate database raw s) = s := by
  by_cases hdb : s.databaseId = some database.id
  · have hkey : mapDelete (mapSet s.data raw.oid (Schema.ofRaw database raw)) raw.oid = s.data :=
      mapDelete_mapSet_of_get_none s.data raw.oid (Schema.ofRaw database raw) h
    simp only [createSchemaUpdate, updateSchemaInStore, if_pos hdb,
      deleteSchemaUpdate, removeSchemaInStore]
    rw [if_pos]
    · exact congrArg (fun d => { s with data := d }) hkey
    · exact hdb
  · have h1 : createSchemaUpdate database raw s = s := by
      simp [createSchemaUpdate, updateSchemaInStore, hdb]
    have h2 : deleteSchemaUpdate (Schema.ofRaw database raw) s = s := by
      simp [deleteSchemaUpdate, removeSchemaInStore, Schema.ofRaw, hdb]
    rw [h1, h2]

theorem create_then_delete_roundtrip_witness :
    mapGet ([(4, ⟨4, 1, "public", none⟩)] : SchemaMap) 9 = none ∧
    deleteSchemaUpdate (Schema.ofRaw ⟨1⟩ ⟨9, "new", none⟩)
        (createSchemaUpdate ⟨1⟩ ⟨9, "new", none⟩
          ⟨some 1, RequestState.success, [(4, ⟨4, 1, "public", none⟩)]⟩) =
      ⟨some 1, RequestState.success, [(4, ⟨4, 1, "public", none⟩)]⟩ :=
  ⟨by decide,
    create_then_delete_roundtrip ⟨1⟩ ⟨9, "new", none⟩
      ⟨some 1, RequestState.success, [(4, ⟨4, 1, "public", none⟩)]⟩ (by decide)⟩

/-- C8: a failed `list` call never escapes `fetchSchemasForCurrentDatabase`
(`fetchRun` is total and records a failure status carrying the message),
while a failed `add` or remote delete propagates its error to the caller
with the store left unchanged. -/
theorem error_propagation_policy :
    (∀ (database : Database) (msg : String) (s : SchemaStoreData),
      (fetchRun (some database) (Except.error msg) s).requestStatus =
        RequestState.failure [msg]) ∧
    (∀ (database : Database) (msg : String) (s : SchemaStoreData),
      createSchemaRun database (Except.error msg) s = (Except.error msg, s)) ∧
    (∀ (schema : Schema) (msg : String) (s : SchemaStoreData),
      deleteSchemaRun schema (Except.error msg) s = (Except.error msg, s)) := by
  refine ⟨?_, ?_, ?_⟩
  · intro database msg s
    by_cases h : s.databaseId = some database.id <;>
      simp [fetchRun, fetchStartUpdate, fetchFailureUpdate, h]
  · intro database msg s
    rfl
  · intro schema msg s
    rfl

/-- C10: calling `fetchSchemasForCurrentDatabase` with no current database
cancels any in-flight request, resets the store to the empty success state
with `databaseId` undefined, and issues no `list` call. -/
theorem fetch_without_current_database (s : SysState) (h : s.current = none) :
    step s Event.startFetch =
      { s with store := makeEmptySchemasData, pending := none } := by
  simp [step, h]

theorem fetch_without_current_database_witness :
    ({ store := ⟨some 1, RequestState.processing, [(4, ⟨4, 1, "public", none⟩)]⟩
       current := none
       pending := some (0, ⟨1⟩)
       nextId := 3 } : SysState).current = none ∧
    step ({ store := ⟨some 1, RequestState.processing, [(4, ⟨4, 1, "public", none⟩)]⟩
            current := none
            pending := some (0, ⟨1⟩)
            nextId := 3 } : SysState) Event.startFetch =
      { store := makeEmptySchemasData
        current := none
        pending := none
        nextId := 3 } :=
  ⟨rfl,
    fetch_without_current_database
      { store := ⟨some 1, RequestState.processing, [(4, ⟨4, 1, "public", none⟩)]⟩
        current := none
        pending := some (0, ⟨1⟩)
        nextId := 3 } rfl⟩

/-- In every reachable module state, the generation number of the pending
request is below the fresh-id counter. -/
theorem pending_id_lt_nextId {s : SysState} (h : Reachable s) :
    ∀ rid db, s.pending = some (rid, db) → rid < s.nextId := by
  induction h with
  | init =>
    intro rid db h'
    cases h'
  | next s e _ ih =>
    intro rid db h'
    cases e with
    | switchDb d =>
      exact ih rid db h'
    | startFetch =>
      rcases hc : s.current with _ | db0
      · simp [step, hc] at h'
      · simp only [step, hc] at h' ⊢
        have := (Option.some_inj.mp h')
        have hrid : s.nextId = rid := congrArg Prod.fst this
        omega
    | listResponse reqId res =>
      rcases hp : s.pending with _ | ⟨r, db0⟩
      · simp only [step, hp] at h'
        simp at h'
      · by_cases hr : r = reqId
        · simp [step, hp, hr] at h'
        · simp only [step, hp, if_neg hr] at h' ⊢
          exact ih rid db (hp.trans h')
    | createDone db0 raw =>
      exact ih rid db h'
    | deleteDone schema =>
      exact ih rid db h'
    | preloadSeed db0 raws =>
      exact ih rid db h'

/-- C4: at most one list request is live at a time (the module's single
`request` slot) and starting a fetch first cancels the in-flight one, so a
request that is pending when the active database switches and a new fetch
starts can no longer affect the cache: delivering its response afterwards
changes nothing. -/
theorem stale_response_has_no_effect (s : SysState) (rid : Nat)
    (db : Database) (hs : Reachable s) (hp : s.pending = some (rid, db))
    (d : Option Database) (res : Except String (List RawSchema)) :
    step (step (step s (Event.switchDb d)) Event.startFetch)
        (Event.listResponse rid res) =
      step (step s (Event.switchDb d)) Event.startFetch := by
  have hlt : rid < s.nextId := pending_id_lt_nextId hs rid db hp
  rcases d with _ | db'
  · simp [step]
  · have hne : ¬ s.nextId = rid := by omega
    simp [step, hne]

theorem stale_response_has_no_effect_witness :
    (step (step initState (Event.switchDb (some ⟨1⟩))) Event.startFetch).pending =
      some (0, (⟨1⟩ : Database)) ∧
    step (step (step (step (step initState (Event.switchDb (some ⟨1⟩)))
            Event.startFetch) (Event.switchDb (some ⟨2⟩))) Event.startFetch)
        (Event.listResponse 0 (Except.ok [⟨4, "public", none⟩])) =
      step (step (step (step initState (Event.switchDb (some ⟨1⟩)))
          Event.startFetch) (Event.switchDb (some ⟨2⟩))) Event.startFetch :=
  ⟨rfl,
    stale_response_has_no_effect
      (step (step initState (Event.switchDb (some ⟨1⟩))) Event.startFetch) 0 ⟨1⟩
      (Reachable.next _ _ (Reachable.next _ _ Reachable.init)) rfl
      (some ⟨2⟩) (Except.ok [⟨4, "public", none⟩])⟩

/-- In every reachable module state, every schema in the data map belongs
to the database identified by the store's `databaseId`. -/
theorem reachable_store_entries (s : SysState) (h : Reachable s) :
    ∀ p ∈ s.store.data, some p.2.databaseId = s.store.databaseId := by
  induction h with
  | init =>
    intro p hp
    cases hp
  | next s e _ ih =>
    cases e with
    | switchDb d =>
      simpa [step] using ih
    | startFetch =>
      rcases hc : s.current with _ | db
      · intro p hp
        simp [step, hc, makeEmptySchemasData] at hp
      · intro p hp
        simp only [step, hc] at hp ⊢
        by_cases hdb : s.store.databaseId = some db.id
        · simp only [fetchStartUpdate, if_pos hdb] at hp ⊢
          exact ih p hp
        · simp [fetchStartUpdate, hdb] at hp
    | listResponse reqId res =>
      rcases hp' : s.pending with _ | ⟨r, db⟩
      · simp only [step, hp']
        exact ih
      · by_cases hr : r = reqId
        · cases res with
          | ok raws =>
            intro p hp
            simp only [step, hp', if_pos hr] at hp ⊢
            rw [setSchemas_entry_database db raws p hp]
            rfl
          | error msg =>
            intro p hp
            simp only [step, hp', if_pos hr] at hp ⊢
            by_cases hdb : s.store.databaseId = some db.id
            · simp only [fetchFailureUpdate, if_pos hdb] at hp ⊢
              exact ih p hp
            · simp [fetchFailureUpdate, hdb] at hp
        · simp only [step, hp', if_neg hr]
          exact ih
    | createDone db raw =>
      intro p hp
      simp only [step, createSchemaUpdate, updateSchemaInStore] at hp ⊢
      by_cases hdb : s.store.databaseId = some db.id
      · simp only [if_pos hdb] at hp ⊢
        rcases mem_mapSet hp with h' | h'
        · exact ih p h'
        · rw [h']
          exact hdb.symm
      · simp only [if_neg hdb] at hp ⊢
        exact ih p hp
    | deleteDone schema =>
      intro p hp
      simp only [step, deleteSchemaUpdate, removeSchemaInStore] at hp ⊢
      by_cases hdb : s.store.databaseId = some schema.databaseId
      · simp only [if_pos hdb] at hp ⊢
        exact ih p (mem_mapDelete hp)
      · simp only [if_neg hdb] at hp ⊢
        exact ih p hp
    | preloadSeed db raws =>
      intro p hp
      simp only [step] at hp ⊢
      rw [setSchemas_entry_database db raws p hp]
      rfl

/-- C9: in every reachable module state whose `requestStatus` is `success`
or `processing`, every schema in the data map belongs to the database
identified by the store's `databaseId` (the invariant in fact holds in
failure states too). -/
theorem reachable_data_belongs_to_database (s : SysState) (h : Reachable s)
    (_hst : s.store.requestStatus = RequestState.success ∨
      s.store.requestStatus = RequestState.processing) :
    ∀ p ∈ s.store.data, some p.2.databaseId = s.store.databaseId :=
  reachable_store_entries s h

theorem reachable_data_belongs_to_database_witness :
    ((step (step (step initState (Event.switchDb (some ⟨1⟩))) Event.startFetch)
        (Event.listResponse 0 (Except.ok [⟨4, "public", none⟩]))).store.requestStatus =
      RequestState.success ∨
      (step (step (step initState (Event.switchDb (some ⟨1⟩))) Event.startFetch)
        (Event.listResponse 0 (Except.ok [⟨4, "public", none⟩]))).store.requestStatus =
      RequestState.processing) ∧
    ∀ p ∈ (step (step (step initState (Event.switchDb (some ⟨1⟩))) Event.startFetch)
        (Event.listResponse 0 (Except.ok [⟨4, "public", none⟩]))).store.data,
      some p.2.databaseId =
        (step (step (step initState (Event.switchDb (some ⟨1⟩))) Event.startFetch)
          (Event.listResponse 0 (Except.ok [⟨4, "public", none⟩]))).store.databaseId :=
  ⟨Or.inl rfl,
    reachable_data_belongs_to_database _
      (Reachable.next _ _ (Reachable.next _ _ (Reachable.next _ _ Reachable.init)))
      (Or.inl rfl)⟩

end Schemas
